import Mathlib

/-!
Shallow embedding of the qr-selfie server (`server.js`, an Express app).

The server keeps a `manifest` — a JS object mapping photo ids to
`{ filename, createdAt }` records — persisted wholesale as JSON, plus a
directory of uploaded files.  The handlers embedded here are:

* `POST /api/upload`  (lines 72–92)   → `uploadHandler`
* `GET  /api/meta/:id` (lines 94–101) → `metaHandler`
* `GET  /api/qr`      (lines 104–114) → `qrHandler`
* `GET  /view/:id`    (lines 116–159) → `viewHandler`
* `loadManifest` / `saveManifest`     (lines 40–50)

JS objects are modelled as insertion-ordered association lists with
overwrite-on-assignment; JS property *lookup* additionally sees the
properties inherited from `Object.prototype`, which the truthiness
check `if (!rec)` in the code does not filter out (`jsGet` below).
External libraries are modelled at their interface: the JSON codec at
the level of JSON values (`Json`), the `qrcode` encoder as an oracle
function, and `nanoid` by its documented algorithm (a fixed 64-character
alphabet indexed by random bytes).
-/

/-- A photo record as stored in the manifest: `manifest[id] = { filename, createdAt }`
(line 83).  `createdAt` is `Date.now()`, a natural number of milliseconds. -/
structure PhotoRecord where
  filename : String
  createdAt : Nat
deriving DecidableEq, Repr

/-- The in-memory manifest: a JS object, i.e. an insertion-ordered map from
id strings to records. -/
abbrev Manifest := List (String × PhotoRecord)

/-- Own-property lookup on a JS-object association list (first binding wins;
`setAssoc` keeps keys unique). -/
def lookupAssoc {α : Type} : List (String × α) → String → Option α
  | [], _ => none
  | (k, v) :: rest, key => if k = key then some v else lookupAssoc rest key

/-- JS property assignment `obj[k] = v`: replaces the value in place if the
key exists, otherwise appends the new key at the end (JS insertion order). -/
def setAssoc {α : Type} : List (String × α) → String → α → List (String × α)
  | [], k, v => [(k, v)]
  | (k', v') :: rest, k, v =>
      if k' = k then (k, v) :: rest else (k', v') :: setAssoc rest k v

/-- JSON values, the interface of the external `JSON.parse`/`JSON.stringify`
pair.  The text-level printer and parser belong to the runtime library; the
contribution of the repository itself is which value is written and how the parsed
value is consumed, so persistence is modelled at this level. -/
inductive Json where
  | str : String → Json
  | num : Nat → Json
  | bool : Bool → Json
  | null : Json
  | arr : List Json → Json
  | obj : List (String × Json) → Json

/-- The persisted manifest file `data/manifest.json`: absent (`readFileSync`
throws), present but not valid JSON (`JSON.parse` throws), or a parsed JSON
value. -/
inductive ManifestFile where
  | absent
  | unparsable
  | content : Json → ManifestFile

/-- `loadManifest` (lines 40–47): read and parse the manifest file, and on
*any* exception — missing file or corrupt JSON alike — return `{}`.  The
`try`/`catch` makes it total: no error reaches the caller. -/
def loadManifest : ManifestFile → Json
  | .absent => .obj []
  | .unparsable => .obj []
  | .content j => j

/-- The JSON value `JSON.stringify` serializes for one record:
`{ "filename": ..., "createdAt": ... }`. -/
def recordToJson (r : PhotoRecord) : Json :=
  .obj [("filename", .str r.filename), ("createdAt", .num r.createdAt)]

/-- The JSON value `JSON.stringify(manifest)` serializes: an object with one
member per manifest entry, in insertion order. -/
def manifestToJson (m : Manifest) : Json :=
  .obj (m.map fun e => (e.1, recordToJson e.2))

/-- `saveManifest` (lines 48–50): overwrite the whole backing file with the
serialized manifest. -/
def saveManifest (m : Manifest) : ManifestFile :=
  .content (manifestToJson m)

/-- Typed reading of one parsed JSON record the way the handlers consume it
(`rec.filename`, `rec.createdAt`): succeeds exactly when the value has the
shape `saveManifest` writes. -/
def jsonToRecord : Json → Option PhotoRecord
  | .obj kvs =>
      match lookupAssoc kvs "filename", lookupAssoc kvs "createdAt" with
      | some (.str f), some (.num c) => some ⟨f, c⟩
      | _, _ => none
  | _ => none

/-- Typed reading of the members of a parsed manifest object. -/
def jsonToEntries : List (String × Json) → Option Manifest
  | [] => some []
  | (k, v) :: rest =>
      match jsonToRecord v, jsonToEntries rest with
      | some r, some m => some ((k, r) :: m)
      | _, _ => none

/-- Typed reading of a parsed manifest JSON value. -/
def jsonToManifest : Json → Option Manifest
  | .obj kvs => jsonToEntries kvs
  | _ => none

/-- The `mimeToExt` lookup table (lines 62–70), in source order. -/
def mimeToExt : List (String × String) :=
  [("image/jpeg", ".jpg"), ("image/jpg", ".jpg"), ("image/png", ".png"),
   ("image/webp", ".webp"), ("image/gif", ".gif"), ("image/heic", ".heic"),
   ("image/heif", ".heif")]

/-- JS `||` on a possibly-undefined string: `undefined` and `""` are falsy,
every other string is truthy. -/
def jsOr (a : Option String) (b : String) : String :=
  match a with
  | none => b
  | some s => if s = "" then b else s

/-- Scanner state of the Node `path.extname` function: `startDot`/`endIdx` are the
`-1`-initialized indices (`none` = `-1`), `startPart` the start of the final
path component, `preDotState` and `matchedSlash` as in the Node source. -/
structure ExtnameState where
  startDot : Option Nat
  endIdx : Option Nat
  startPart : Nat
  preDotState : Int
  matchedSlash : Bool

/-- Initial scanner state of `path.extname`. -/
def extnameInit : ExtnameState :=
  ⟨none, none, 0, 0, true⟩

/-- The right-to-left scan loop of the Node `path.extname` function, over the
(index, char) pairs of the path in descending index order; stops at the
first `/` after a non-slash character. -/
def extnameScan : ExtnameState → List (Nat × Char) → ExtnameState
  | st, [] => st
  | st, (i, c) :: rest =>
      if c = '/' then
        if st.matchedSlash then extnameScan st rest
        else { st with startPart := i + 1 }
      else
        let st1 := match st.endIdx with
          | none => { st with matchedSlash := false, endIdx := some (i + 1) }
          | some _ => st
        let st2 :=
          if c = '.' then
            match st1.startDot with
            | none => { st1 with startDot := some i }
            | some _ => if st1.preDotState ≠ 1 then { st1 with preDotState := 1 } else st1
          else
            match st1.startDot with
            | none => st1
            | some _ => { st1 with preDotState := -1 }
        extnameScan st2 rest

/-- The Node `path.extname` function: the final-component extension from the last `.`
to the end, or `""` when there is no dot, the dot leads a dotfile name, or
the component is `".."`. -/
def extname (s : String) : String :=
  let cs := s.toList
  let st := extnameScan extnameInit cs.enum.reverse
  match st.startDot, st.endIdx with
  | some sd, some en =>
      if st.preDotState = 0 ∨
         (st.preDotState = 1 ∧ sd + 1 = en ∧ sd = st.startPart + 1) then ""
      else String.mk ((cs.drop sd).take (en - sd))
  | _, _ => ""

/-- The property names every plain JS object inherits from
`Object.prototype`.  All of them are bound to functions or objects, hence
truthy. -/
def objectPrototypeKeys : List String :=
  ["constructor", "hasOwnProperty", "isPrototypeOf", "propertyIsEnumerable",
   "toLocaleString", "toString", "valueOf", "__defineGetter__",
   "__defineSetter__", "__lookupGetter__", "__lookupSetter__", "__proto__"]

/-- Outcome of the JS property read `mimeToExt[mimetype]` on the plain
object literal `mimeToExt`: `undefined` (falsy), an own-property string, or
a truthy function/object inherited from `Object.prototype` (for example
`mimeToExt["constructor"]` is `Object.prototype.constructor`, the `Object`
function). -/
inductive JsStrLookup where
  | absentKey
  | ownStr : String → JsStrLookup
  | inherited : String → JsStrLookup

/-- The JS property read on a string-valued object literal (line 77),
prototype chain included: own properties first, then `Object.prototype`. -/
def jsGetStr (l : List (String × String)) (key : String) : JsStrLookup :=
  match lookupAssoc l key with
  | some s => .ownStr s
  | none => if key ∈ objectPrototypeKeys then .inherited key else .absentKey

/-- The JS string conversion applied by `id + ext` (line 78) to the value
`Object.prototype` binds at a given key, as the V8 runtime under Node
prints it: a native function prints as
`function <name>() \x7b [native code] \x7d` — for `"constructor"` the
function is named `Object` — and the `__proto__` accessor yields
`Object.prototype` itself, printing as `[object Object]`. -/
def protoValueString : String → String
  | "__proto__" => "[object Object]"
  | "constructor" => "function Object() \x7b [native code] \x7d"
  | k => "function " ++ k ++ "() \x7b [native code] \x7d"

/-- Lines 77–78: `ext = mimeToExt[req.file.mimetype] || path.extname(req.file.originalname) || ".jpg"`
(the default is single-quoted in the source), followed by the string
conversion that the concatenation `id + ext` applies to the picked value.
The property read walks the prototype chain (`jsGetStr`); a value inherited
from `Object.prototype` is truthy, so the `||` chain stops on it and its
stringification reaches the filename. -/
def chooseExt (mimetype originalname : String) : String :=
  match jsGetStr mimeToExt mimetype with
  | .ownStr e => if e = "" then jsOr (some (extname originalname)) ".jpg" else e
  | .inherited k => protoValueString k
  | .absentKey => jsOr (some (extname originalname)) ".jpg"

/-- The 64-character URL-safe alphabet of the external `nanoid` library. -/
def nanoidAlphabet : List Char :=
  "useandom-26T198340PX75pxJACKVERYMINDBUSHWOLF_GQZbfghjklqvwyzrict".toList

/-- The `nanoid(size)` generator, modelled by its documented algorithm: each
of the `size` output characters indexes the 64-character alphabet with a
random byte reduced mod 64.  `randomBytes` is the random source. -/
def nanoid (randomBytes : Nat → Nat) (size : Nat) : String :=
  String.mk ((List.range size).map fun i => nanoidAlphabet.getD (randomBytes i % 64) 'u')

/-- `BASE_URL` (line 29): `http://<LAN ip>:<port>`. -/
def mkBaseUrl (ip port : String) : String :=
  "http://" ++ ip ++ ":" ++ port

/-- The uploaded file as the multer memory storage presents it:
`req.file.mimetype`, `req.file.originalname`, `req.file.buffer`. -/
structure UploadedFile where
  mimetype : String
  originalname : String
  buffer : List Nat

/-- Server state touched by the handlers: the in-memory manifest object, the
uploads directory (filename to bytes, `fs.promises.writeFile` overwrites),
and the persisted manifest file. -/
structure ServerState where
  manifest : Manifest
  uploads : List (String × List Nat)
  manifestFile : ManifestFile

/-- Response of `POST /api/upload`: 400 `{error}` or 200 `{id, viewUrl}`.
The 500 catch-all (lines 88–91) fires only on I/O exceptions, which this
state model does not raise. -/
inductive UploadResult where
  | badRequest : String → UploadResult
  | ok : String → String → UploadResult
deriving DecidableEq, Repr

/-- The `POST /api/upload` handler (lines 72–92).  `id` is the value
returned by `nanoid(10)` and `now` the value of `Date.now()`, passed in as
oracles for the nondeterministic calls. -/
def uploadHandler (baseUrl id : String) (now : Nat) (file : Option UploadedFile)
    (st : ServerState) : ServerState × UploadResult :=
  match file with
  | none => (st, .badRequest "No photo uploaded")
  | some f =>
      let ext := chooseExt f.mimetype f.originalname
      let filename := id ++ ext
      let st1 := { st with uploads := setAssoc st.uploads filename f.buffer }
      let m := setAssoc st1.manifest id ⟨filename, now⟩
      let st2 := { st1 with manifest := m, manifestFile := saveManifest m }
      (st2, .ok id (baseUrl ++ "/view/" ++ id))

/-- Outcome of the JS property read `manifest[id]`: `undefined` (falsy), an
own-property record, or a truthy non-record value inherited from
`Object.prototype` (for example `manifest["toString"]` is
`Object.prototype.toString`, a function; its `.filename` is `undefined`). -/
inductive JsLookup where
  | absentKey
  | record : PhotoRecord → JsLookup
  | inherited

/-- The JS property read `manifest[id]` (lines 96 and 118), prototype chain
included: own properties first, then `Object.prototype`. -/
def jsGet (m : Manifest) (key : String) : JsLookup :=
  match lookupAssoc m key with
  | some r => .record r
  | none => if key ∈ objectPrototypeKeys then .inherited else .absentKey

/-- Response of `GET /api/meta/:id`: 404 or 200 `{id, imageUrl, viewUrl}`. -/
inductive MetaResult where
  | notFound
  | ok : String → String → String → MetaResult
deriving DecidableEq, Repr

/-- The `GET /api/meta/:id` handler (lines 94–101).  `if (!rec)` is a
truthiness test, so a truthy value inherited from `Object.prototype` passes
it; `rec.filename` is then `undefined` and the template literal renders it
as the string `"undefined"`. -/
def metaHandler (baseUrl id : String) (st : ServerState) : MetaResult :=
  match jsGet st.manifest id with
  | .absentKey => .notFound
  | .record r => .ok id ("/uploads/" ++ r.filename) (baseUrl ++ "/view/" ++ id)
  | .inherited => .ok id "/uploads/undefined" (baseUrl ++ "/view/" ++ id)

/-- The width/margin options object passed to `QRCode.toBuffer` (line 108). -/
structure QrOptions where
  width : Nat
  margin : Nat
deriving DecidableEq, Repr

/-- Response of `GET /api/qr`: 400 text, 200 PNG bytes, or 500 text. -/
inductive QrResult where
  | badRequest : String → QrResult
  | png : List Nat → QrResult
  | serverError : String → QrResult
deriving DecidableEq, Repr

/-- The `GET /api/qr` handler (lines 104–114).  `encode` is the external
`QRCode.toBuffer` (`none` = the promise rejects); `text` is `req.query.text`
(`none` = parameter missing).  Line 105 coalesces a missing parameter to
the empty string and line 106 rejects any falsy value. -/
def qrHandler (encode : String → QrOptions → Option (List Nat))
    (text : Option String) : QrResult :=
  let t := jsOr text ""
  if t = "" then .badRequest "Missing text"
  else
    match encode t ⟨256, 1⟩ with
    | some buf => .png buf
    | none => .serverError "QR generation failed"

/-- Response of `GET /view/:id`: 404 or the viewer HTML page, which
client-side fetches `/api/meta/<id>` (body elided; no server state is read
beyond the `manifest[id]` truthiness check). -/
inductive ViewResult where
  | notFound
  | page : String → ViewResult
deriving DecidableEq, Repr

/-- The `GET /view/:id` handler (lines 116–159): same `manifest[id]`
truthiness check as `metaHandler`, then a static HTML response. -/
def viewHandler (id : String) (st : ServerState) : ViewResult :=
  match jsGet st.manifest id with
  | .absentKey => .notFound
  | _ => .page id

/-- One incoming request, with the nondeterministic inputs (`nanoid`,
`Date.now()`) of the upload route made explicit. -/
inductive Op where
  | upload : String → Nat → Option UploadedFile → Op
  | meta : String → Op
  | view : String → Op
  | qr : Option String → Op

/-- The state after serving one request.  Only the upload route writes:
`metaHandler`, `viewHandler` and `qrHandler` read the state (or nothing)
and leave it unchanged, as in the source. -/
def applyOp (baseUrl : String) (encode : String → QrOptions → Option (List Nat))
    (st : ServerState) : Op → ServerState
  | .upload id now f => (uploadHandler baseUrl id now f st).1
  | .meta i => let _ := metaHandler baseUrl i st; st
  | .view i => let _ := viewHandler i st; st
  | .qr t => let _ := qrHandler encode t; st

/-- Freshness precondition of an operation: the generated id of an upload is not
already a manifest key (the generator is random and unchecked, so this is
an assumption, not something the code enforces). -/
def opFresh (st : ServerState) : Op → Prop
  | .upload id _ _ => lookupAssoc st.manifest id = none
  | _ => True

/-! ## Association-list lemmas -/

/-- Assignment followed by lookup of the same key yields the assigned value. -/
theorem lookupAssoc_setAssoc_self {α : Type} (l : List (String × α)) (k : String) (v : α) :
    lookupAssoc (setAssoc l k v) k = some v := by
  induction l with
  | nil => simp [setAssoc, lookupAssoc]
  | cons hd tl ih =>
      obtain ⟨k1, v1⟩ := hd
      by_cases h : k1 = k
      · simp [setAssoc, h, lookupAssoc]
      · simp [setAssoc, h, lookupAssoc, ih]

/-- Assignment leaves the binding of every other key unchanged. -/
theorem lookupAssoc_setAssoc_ne {α : Type} (l : List (String × α)) (k j : String) (v : α)
    (h : j ≠ k) : lookupAssoc (setAssoc l k v) j = lookupAssoc l j := by
  induction l with
  | nil => simp [setAssoc, lookupAssoc, Ne.symm h]
  | cons hd tl ih =>
      obtain ⟨k1, v1⟩ := hd
      by_cases hk : k1 = k
      · subst hk
        simp [setAssoc, lookupAssoc, Ne.symm h]
      · simp [setAssoc, hk, lookupAssoc, ih]

/-- Assigning a key that is not yet bound grows the object by one member. -/
theorem length_setAssoc_fresh {α : Type} (l : List (String × α)) (k : String) (v : α)
    (h : lookupAssoc l k = none) : (setAssoc l k v).length = l.length + 1 := by
  induction l with
  | nil => simp [setAssoc]
  | cons hd tl ih =>
      obtain ⟨k1, v1⟩ := hd
      by_cases hk : k1 = k
      · simp [lookupAssoc, hk] at h
      · simp [lookupAssoc, hk] at h
        simp [setAssoc, hk, ih h]

/-- A successful lookup exhibits a member of the association list. -/
theorem lookupAssoc_mem {α : Type} (l : List (String × α)) (k : String) (v : α)
    (h : lookupAssoc l k = some v) : (k, v) ∈ l := by
  induction l with
  | nil => simp [lookupAssoc] at h
  | cons hd tl ih =>
      obtain ⟨k1, v1⟩ := hd
      by_cases hk : k1 = k
      · subst hk
        simp [lookupAssoc] at h
        simp [h]
      · simp [lookupAssoc, hk] at h
        exact List.mem_cons_of_mem _ (ih h)

/-! ## JSON round-trip lemmas -/

/-- Reading back the serialized form of a record yields the record. -/
theorem jsonToRecord_recordToJson (r : PhotoRecord) :
    jsonToRecord (recordToJson r) = some r := rfl

/-- Reading back the serialized members of a manifest yields the manifest. -/
theorem jsonToEntries_map (m : Manifest) :
    jsonToEntries (m.map fun e => (e.1, recordToJson e.2)) = some m := by
  induction m with
  | nil => rfl
  | cons hd tl ih =>
      obtain ⟨k, r⟩ := hd
      simp [jsonToEntries, jsonToRecord_recordToJson, ih]

/-- Reading back the serialized manifest yields the manifest. -/
theorem jsonToManifest_manifestToJson (m : Manifest) :
    jsonToManifest (manifestToJson m) = some m := by
  simp [jsonToManifest, manifestToJson, jsonToEntries_map]

/-! ## Claim theorems -/

/-- C1: an upload request carrying a file writes the file bytes to the
uploads location under the name id+ext, adds exactly one manifest entry for
the freshly generated id with that filename and the creation timestamp,
persists the manifest, and returns the id together with a fully-qualified
view URL that contains the id. -/
theorem upload_success_stores_file_entry_and_url (ip port id : String) (now : Nat)
    (f : UploadedFile) (st : ServerState)
    (hfresh : lookupAssoc st.manifest id = none) :
    lookupAssoc (uploadHandler (mkBaseUrl ip port) id now (some f) st).1.uploads
        (id ++ chooseExt f.mimetype f.originalname) = some f.buffer ∧
    lookupAssoc (uploadHandler (mkBaseUrl ip port) id now (some f) st).1.manifest id =
      some ⟨id ++ chooseExt f.mimetype f.originalname, now⟩ ∧
    (∀ j, j ≠ id →
      lookupAssoc (uploadHandler (mkBaseUrl ip port) id now (some f) st).1.manifest j =
        lookupAssoc st.manifest j) ∧
    (uploadHandler (mkBaseUrl ip port) id now (some f) st).1.manifest.length =
      st.manifest.length + 1 ∧
    (uploadHandler (mkBaseUrl ip port) id now (some f) st).1.manifestFile =
      saveManifest (uploadHandler (mkBaseUrl ip port) id now (some f) st).1.manifest ∧
    (uploadHandler (mkBaseUrl ip port) id now (some f) st).2 =
      .ok id (mkBaseUrl ip port ++ "/view/" ++ id) ∧
    ∃ pre, mkBaseUrl ip port ++ "/view/" ++ id = pre ++ id := by
  refine ⟨?_, ?_, ?_, ?_, ?_, ?_, ⟨mkBaseUrl ip port ++ "/view/", rfl⟩⟩
  · simp [uploadHandler, lookupAssoc_setAssoc_self]
  · simp [uploadHandler, lookupAssoc_setAssoc_self]
  · intro j hj
    simp [uploadHandler, lookupAssoc_setAssoc_ne _ _ _ _ hj]
  · simp [uploadHandler, length_setAssoc_fresh _ _ _ hfresh]
  · rfl
  · rfl

/-- Witness for C1 at a concrete upload into an empty server state. -/
theorem upload_success_stores_file_entry_and_url_witness :
    lookupAssoc (uploadHandler (mkBaseUrl "192.168.1.7" "3000") "V1StGXR8Z5" 1700000000000
        (some ⟨"image/png", "selfie.png", [137, 80, 78, 71]⟩)
        ⟨[], [], ManifestFile.absent⟩).1.manifest "V1StGXR8Z5" =
      some ⟨"V1StGXR8Z5" ++ chooseExt "image/png" "selfie.png", 1700000000000⟩ ∧
    (uploadHandler (mkBaseUrl "192.168.1.7" "3000") "V1StGXR8Z5" 1700000000000
        (some ⟨"image/png", "selfie.png", [137, 80, 78, 71]⟩)
        ⟨[], [], ManifestFile.absent⟩).2 =
      .ok "V1StGXR8Z5" (mkBaseUrl "192.168.1.7" "3000" ++ "/view/" ++ "V1StGXR8Z5") :=
  ⟨(upload_success_stores_file_entry_and_url "192.168.1.7" "3000" "V1StGXR8Z5" 1700000000000
      ⟨"image/png", "selfie.png", [137, 80, 78, 71]⟩ ⟨[], [], ManifestFile.absent⟩ rfl).2.1,
   (upload_success_stores_file_entry_and_url "192.168.1.7" "3000" "V1StGXR8Z5" 1700000000000
      ⟨"image/png", "selfie.png", [137, 80, 78, 71]⟩ ⟨[], [], ManifestFile.absent⟩ rfl).2.2.2.2.2.1⟩

/-- C2 (failing input): on an empty manifest, `GET /api/meta/toString` does
NOT return 404: `manifest["toString"]` finds the truthy
`Object.prototype.toString`, the `if (!rec)` guard passes, and the handler
answers 200 with `imageUrl` `"/uploads/undefined"` — contradicting the
claimed "404 if and only if the id is absent from the manifest". -/
theorem metaHandler_inherited_key_escapes_notFound :
    metaHandler "http://192.168.1.7:3000" "toString"
        ⟨[], [], ManifestFile.absent⟩ =
      .ok "toString" "/uploads/undefined" "http://192.168.1.7:3000/view/toString" := by
  rfl

/-- C3: an upload request with no file field is answered 400 with the
"no photo uploaded" error, and the server state — manifest, uploads
directory, persisted manifest file — is returned exactly unchanged. -/
theorem upload_missing_file_rejected_state_unchanged (baseUrl id : String) (now : Nat)
    (st : ServerState) :
    uploadHandler baseUrl id now none st = (st, .badRequest "No photo uploaded") := rfl

/-- C4: every operation — upload (with a fresh generated id, the collision
assumption the claim itself states), metadata lookup, view, QR — preserves
every existing id-to-record binding of the manifest unchanged. -/
theorem manifest_bindings_never_mutated (baseUrl : String)
    (encode : String → QrOptions → Option (List Nat)) (st : ServerState) (op : Op)
    (hfresh : opFresh st op) (j : String) (r : PhotoRecord)
    (hj : lookupAssoc st.manifest j = some r) :
    lookupAssoc (applyOp baseUrl encode st op).manifest j = some r := by
  cases op with
  | upload id now file =>
      have hid : lookupAssoc st.manifest id = none := hfresh
      cases file with
      | none => simpa [applyOp, uploadHandler] using hj
      | some f =>
          have hne : j ≠ id := by
            intro hji
            rw [hji, hid] at hj
            exact Option.noConfusion hj
          simpa [applyOp, uploadHandler, lookupAssoc_setAssoc_ne _ _ _ _ hne] using hj
  | meta i => simpa [applyOp] using hj
  | view i => simpa [applyOp] using hj
  | qr t => simpa [applyOp] using hj

/-- Witness for C4: a second upload with a fresh id preserves the binding
created by a first upload. -/
theorem manifest_bindings_never_mutated_witness :
    lookupAssoc (applyOp "http://192.168.1.7:3000" (fun _ _ => none)
        ⟨[("V1StGXR8Z5", ⟨"V1StGXR8Z5.png", 1⟩)], [], ManifestFile.absent⟩
        (.upload "bQjz9kXh2M" 2 (some ⟨"image/gif", "x.gif", [71]⟩))).manifest
        "V1StGXR8Z5" = some ⟨"V1StGXR8Z5.png", 1⟩ :=
  manifest_bindings_never_mutated "http://192.168.1.7:3000" (fun _ _ => none)
    ⟨[("V1StGXR8Z5", ⟨"V1StGXR8Z5.png", 1⟩)], [], ManifestFile.absent⟩
    (.upload "bQjz9kXh2M" 2 (some ⟨"image/gif", "x.gif", [71]⟩)) rfl
    "V1StGXR8Z5" ⟨"V1StGXR8Z5.png", 1⟩ rfl

/-- C5 (counterexample): `"constructor"` is not a key of the mime table and
the original filename does have the extension `".png"`, yet the chosen
extension is neither that extension nor the default: the property read on
the `mimeToExt` object literal finds the truthy inherited
`Object.prototype.constructor`, the `||` chain stops on it, and its
stringification becomes the extension — refuting the claimed exact
three-step fallback. -/
theorem chooseExt_prototype_mimetype_counterexample :
    lookupAssoc mimeToExt "constructor" = none ∧
    extname "photo.png" = ".png" ∧
    chooseExt "constructor" "photo.png" = protoValueString "constructor" ∧
    chooseExt "constructor" "photo.png" ≠ ".png" ∧
    chooseExt "constructor" "photo.png" ≠ ".jpg" :=
  ⟨rfl, by decide, rfl, by decide, by decide⟩

/-- C5 (amended): when the declared content type is a table key, its table
entry is the extension; when it is neither a table key nor an
`Object.prototype` property name, the extension of the original filename is
used, else the default `".jpg"`; but a declared content type naming an
`Object.prototype` property yields that truthy inherited value, whose
stringification becomes the extension. -/
theorem chooseExt_three_step_fallback_amended (mt orig : String) :
    (∀ e, lookupAssoc mimeToExt mt = some e → chooseExt mt orig = e) ∧
    (lookupAssoc mimeToExt mt = none → mt ∉ objectPrototypeKeys →
      extname orig ≠ "" → chooseExt mt orig = extname orig) ∧
    (lookupAssoc mimeToExt mt = none → mt ∉ objectPrototypeKeys →
      extname orig = "" → chooseExt mt orig = ".jpg") ∧
    (lookupAssoc mimeToExt mt = none → mt ∈ objectPrototypeKeys →
      chooseExt mt orig = protoValueString mt) := by
  refine ⟨?_, ?_, ?_, ?_⟩
  · intro e he
    have hmem : (mt, e) ∈ mimeToExt := lookupAssoc_mem _ _ _ he
    have hne : e ≠ "" := by
      simp only [mimeToExt, List.mem_cons, List.not_mem_nil, or_false] at hmem
      rcases hmem with h | h | h | h | h | h | h <;>
        simp_all
    simp [chooseExt, jsGetStr, he, hne]
  · intro hn hp hne
    simp [chooseExt, jsGetStr, hn, hp, jsOr, hne]
  · intro hn hp he
    simp [chooseExt, jsGetStr, hn, hp, jsOr, he]
  · intro hn hp
    simp [chooseExt, jsGetStr, hn, hp]

/-- Witness for the amended C5: all four branches at concrete inputs. -/
theorem chooseExt_three_step_fallback_amended_witness :
    chooseExt "image/webp" "selfie.png" = ".webp" ∧
    chooseExt "application/pdf" "doc.pdf" = extname "doc.pdf" ∧
    chooseExt "application/pdf" "doc" = ".jpg" ∧
    chooseExt "toString" "doc.pdf" = protoValueString "toString" :=
  ⟨(chooseExt_three_step_fallback_amended "image/webp" "selfie.png").1 ".webp" rfl,
   (chooseExt_three_step_fallback_amended "application/pdf" "doc.pdf").2.1 rfl
     (by decide) (by decide),
   (chooseExt_three_step_fallback_amended "application/pdf" "doc").2.2.1 rfl
     (by decide) rfl,
   (chooseExt_three_step_fallback_amended "toString" "doc.pdf").2.2.2 rfl (by decide)⟩

/-- C6: saving then loading the manifest is the identity, so after writing
any number of records and reloading from disk, every id resolves via the
`GET /api/meta/:id` handler to its stored record. -/
theorem saveManifest_loadManifest_roundtrip (base : String) (m reloaded : Manifest)
    (h : jsonToManifest (loadManifest (saveManifest m)) = some reloaded) :
    reloaded = m ∧
    ∀ id r ups mf, lookupAssoc m id = some r →
      metaHandler base id ⟨reloaded, ups, mf⟩ =
        .ok id ("/uploads/" ++ r.filename) (base ++ "/view/" ++ id) := by
  have hm : reloaded = m := by
    have h2 : jsonToManifest (manifestToJson m) = some reloaded := h
    rw [jsonToManifest_manifestToJson] at h2
    exact (Option.some_inj.mp h2).symm
  refine ⟨hm, ?_⟩
  intro id r ups mf hid
  subst hm
  simp [metaHandler, jsGet, hid]

/-- Witness for C6: one record survives the save/load round trip and
resolves through the meta handler. -/
theorem saveManifest_loadManifest_roundtrip_witness :
    metaHandler "http://192.168.1.7:3000" "V1StGXR8Z5"
        ⟨[("V1StGXR8Z5", ⟨"V1StGXR8Z5.png", 42⟩)], [], ManifestFile.absent⟩ =
      .ok "V1StGXR8Z5" ("/uploads/" ++ "V1StGXR8Z5.png")
        ("http://192.168.1.7:3000" ++ "/view/" ++ "V1StGXR8Z5") :=
  (saveManifest_loadManifest_roundtrip "http://192.168.1.7:3000"
      [("V1StGXR8Z5", ⟨"V1StGXR8Z5.png", 42⟩)]
      [("V1StGXR8Z5", ⟨"V1StGXR8Z5.png", 42⟩)] rfl).2
    "V1StGXR8Z5" ⟨"V1StGXR8Z5.png", 42⟩ [] ManifestFile.absent rfl

/-- C7: `loadManifest` yields the empty object both when the persisted file
is absent and when it is unparsable, with no distinction between the two;
being a total function of the file state, it raises nothing to the caller. -/
theorem loadManifest_absent_or_unparsable_is_empty :
    loadManifest ManifestFile.absent = Json.obj [] ∧
    loadManifest ManifestFile.unparsable = Json.obj [] ∧
    loadManifest ManifestFile.absent = loadManifest ManifestFile.unparsable :=
  ⟨rfl, rfl, rfl⟩

/-- C8: `GET /api/qr` answers 400 when the text parameter is missing;
given a (non-empty) text it calls the encoder with width 256 and margin 1
and returns the PNG bytes, or 500 when the encoder fails. -/
theorem qrHandler_missing_encode_and_failure
    (encode : String → QrOptions → Option (List Nat)) (s : String) (hs : s ≠ "") :
    qrHandler encode none = .badRequest "Missing text" ∧
    (∀ buf, encode s ⟨256, 1⟩ = some buf → qrHandler encode (some s) = .png buf) ∧
    (encode s ⟨256, 1⟩ = none → qrHandler encode (some s) = .serverError "QR generation failed") := by
  refine ⟨rfl, ?_, ?_⟩
  · intro buf hbuf
    simp [qrHandler, jsOr, hs, hbuf]
  · intro hnone
    simp [qrHandler, jsOr, hs, hnone]

/-- Witness for C8: a concrete encoder succeeding and a concrete encoder
failing, plus the missing-parameter case. -/
theorem qrHandler_missing_encode_and_failure_witness :
    qrHandler (fun t _ => some (t.toList.map Char.toNat)) none = .badRequest "Missing text" ∧
    qrHandler (fun t _ => some (t.toList.map Char.toNat)) (some "x") = .png [120] ∧
    qrHandler (fun _ _ => none) (some "x") = .serverError "QR generation failed" :=
  ⟨(qrHandler_missing_encode_and_failure (fun t _ => some (t.toList.map Char.toNat)) "x"
      (by decide)).1,
   (qrHandler_missing_encode_and_failure (fun t _ => some (t.toList.map Char.toNat)) "x"
      (by decide)).2.1 [120] rfl,
   (qrHandler_missing_encode_and_failure (fun _ _ => none) "x" (by decide)).2.2 rfl⟩

/-- C9: a present-but-empty text parameter is answered 400 exactly like a
missing one — for every encoder the response is the same `badRequest`, so
the empty string never reaches the encoder. -/
theorem qrHandler_empty_text_same_as_missing
    (enc enc2 : String → QrOptions → Option (List Nat)) :
    qrHandler enc (some "") = .badRequest "Missing text" ∧
    qrHandler enc (some "") = qrHandler enc none ∧
    qrHandler enc (some "") = qrHandler enc2 (some "") :=
  ⟨rfl, rfl, rfl⟩

/-- C10: every id produced by the modelled `nanoid(10)` call is exactly 10
characters long, and the upload handler stores it under the filename
id ++ ext for the chosen extension. -/
theorem nanoid_ids_are_ten_chars (rb : Nat → Nat) (baseUrl : String) (now : Nat)
    (f : UploadedFile) (st : ServerState) :
    (nanoid rb 10).length = 10 ∧
    lookupAssoc ((uploadHandler baseUrl (nanoid rb 10) now (some f) st).1).manifest
        (nanoid rb 10) =
      some ⟨nanoid rb 10 ++ chooseExt f.mimetype f.originalname, now⟩ := by
  constructor
  · rfl
  · simp [uploadHandler, lookupAssoc_setAssoc_self]
